import Mathlib

/-!
Verification development for the sapapp approval-workflow repository.

The backing store (MSSQL tables) is modelled as lists of rows inside a `DB`
structure; each Express endpoint of `server.cjs` becomes a function
`DB → body → DB × ApiResult _` translating the endpoint's validation checks
and SQL statements.  Client-side logic (`src/lib/storage.ts`, the dashboards
and the forms) is translated as functions composing those endpoint models.
Timestamps are modelled as `Nat` milliseconds (the tables use DATETIME2(3),
millisecond precision); ISO-string/Date conversions are dropped.
-/

/-- JavaScript falsiness test for an optional string request-body field:
`!x` is true when the field is absent, null or the empty string. -/
def falsy (o : Option String) : Bool :=
  match o with
  | none => true
  | some s => s = ""

/-- JavaScript `x || null` coercion used by the endpoints when binding
nullable SQL parameters: absent or empty strings become NULL. -/
def orNull (o : Option String) : Option String :=
  match o with
  | none => none
  | some s => if s = "" then none else some s

/-- `String.padStart(n, c)` from JavaScript: left-pad to length `n`
(no truncation when the string is already at least that long). -/
def padStart (n : Nat) (c : Char) (s : String) : String :=
  String.mk (List.replicate (n - s.length) c) ++ s

/-- `String.prototype.trim()` from JavaScript: strip leading and trailing
whitespace (rendered over the character list so that it evaluates inside the
kernel). -/
def jsTrim (s : String) : String :=
  String.mk
    (((s.data.dropWhile Char.isWhitespace).reverse.dropWhile
      Char.isWhitespace).reverse)

/-- `String.prototype.toUpperCase()` from JavaScript (ASCII inputs here),
rendered over the character list so that it evaluates inside the kernel. -/
def jsUpper (s : String) : String :=
  String.mk (s.data.map Char.toUpper)

/-- Row of `dbo.Requests`. -/
structure RequestRow where
  requestId : String
  type : String
  title : String
  status : String
  createdBy : String
  createdAt : Nat
  updatedAt : Nat
deriving DecidableEq

/-- Row of `dbo.Approvals` (PK (requestId, approverEmail); comment and
attachmentId are nullable columns). -/
structure ApprovalRow where
  requestId : String
  approverEmail : String
  role : String
  decision : String
  comment : Option String
  attachmentId : Option String
  timestamp : Nat
deriving DecidableEq

/-- Row of `dbo.HistoryLogs` (PK (requestId, timestamp)); `metadata` is the
NVARCHAR(MAX) column (JSON serialization of the payload is abstracted to the
already-serialized string). -/
structure HistoryRow where
  requestId : String
  timestamp : Nat
  action : String
  user : String
  metadata : Option String
deriving DecidableEq

/-- Row of `dbo.PlantCodeDetails` (unique key (requestId, version)); all
non-key columns are nullable as far as the upsert is concerned (the endpoint
binds `v ?? null`), so they are stored as `Option String`. -/
structure PlantRow where
  requestId : String
  version : Nat
  companyCode : Option String
  gstNumber : Option String
  gstCertificate : Option String
  plantCode : Option String
  nameOfPlant : Option String
  addressOfPlant : Option String
  purchaseOrganization : Option String
  nameOfPurchaseOrganization : Option String
  salesOrganization : Option String
  nameOfSalesOrganization : Option String
  profitCenter : Option String
  nameOfProfitCenter : Option String
  costCenters : Option String
  nameOfCostCenters : Option String
  projectCode : Option String
  projectCodeDescription : Option String
  storageLocationCode : Option String
  storageLocationDescription : Option String
deriving DecidableEq

/-- Row of `dbo.RequestIdCounters` (PK (prefix, yyyymmdd)).  The column
named `prefix` in the DDL is rendered `pfx` here. -/
structure CounterRow where
  pfx : String
  yyyymmdd : String
  lastSeq : Nat
deriving DecidableEq

/-- The persistent state touched by the modelled endpoints. -/
structure DB where
  requests : List RequestRow
  approvals : List ApprovalRow
  history : List HistoryRow
  plantDetails : List PlantRow
  counters : List CounterRow
deriving DecidableEq

/-- Outcome of an endpoint call: `ok` mirrors `ok(res, data)`, `err`
mirrors `fail(res, code, msg)` (400 for validation, 500 for store failure). -/
inductive ApiResult (α : Type) where
  | ok (a : α)
  | err (code : Nat) (msg : String)
deriving DecidableEq

/-- The `IF EXISTS ... UPDATE ... ELSE INSERT` upsert pattern used by the
approvals and details endpoints: when a row matching `key` exists, every
matching row has its (non-key) columns overwritten — since `row` agrees with
the key, this is replacement by `row` — otherwise `row` is inserted. -/
def upsertBy {α : Type} (key : α → Bool) (row : α) (l : List α) : List α :=
  if l.any key then l.map (fun a => if key a then row else a) else l ++ [row]

/-- `generateRequestId` from server.cjs: prefix is "C" when
`String(ncType || "N").toUpperCase() === "C"`, else "N"; a MERGE on
RequestIdCounters increments-or-inserts the (prefix, yyyymmdd) counter and
returns the post-increment value; the id is
`prefix + "_" + ddmmyyyy + "_" + String(seq).padStart(3, "0")`.
`today` is the server-local date `CONVERT(CHAR(8), GETDATE(), 112)`. -/
def generateRequestId (ncType : Option String) (today : String)
    (counters : List CounterRow) : String × List CounterRow :=
  let raw := match ncType with
    | none => "N"
    | some s => if s = "" then "N" else s
  let p := if jsUpper raw = "C" then "C" else "N"
  let matched := counters.find? (fun c => c.pfx == p && c.yyyymmdd == today)
  let nextSeq := match matched with
    | some c => c.lastSeq + 1
    | none => 1
  let counters1 := match matched with
    | some _ => counters.map (fun c =>
        if c.pfx == p && c.yyyymmdd == today then
          { c with lastSeq := c.lastSeq + 1 } else c)
    | none => counters ++ [⟨p, today, 1⟩]
  let ddmmyyyy := (today.drop 6).take 2 ++ (today.drop 4).take 2 ++ today.take 4
  (p ++ "_" ++ ddmmyyyy ++ "_" ++ padStart 3 '0' (toString nextSeq), counters1)

/-- Body of `POST /api/requests`. -/
structure RequestsBody where
  requestId : Option String
  type : Option String
  title : Option String
  status : Option String
  createdBy : Option String
  ncType : Option String
  createdAt : Option Nat
  updatedAt : Option Nat
deriving DecidableEq

/-- The `IF EXISTS ... UPDATE ... ELSE INSERT` of `POST /api/requests`:
the UPDATE branch overwrites type, title, status and createdBy and refreshes
updatedAt (createdAt is kept); the INSERT branch writes the full row. -/
def requestsUpsert (l : List RequestRow) (rid ty ti st cb : String)
    (ca ua : Nat) : List RequestRow :=
  if l.any (fun r => r.requestId == rid) then
    l.map (fun r => if r.requestId == rid then
      { r with type := ty, title := ti, status := st, createdBy := cb,
               updatedAt := ua } else r)
  else l ++ [⟨rid, ty, ti, st, cb, ca, ua⟩]

/-- `POST /api/requests` (server.cjs): requires type, title, status and
createdBy to be truthy; resolves the requestId (`requestId ||
await generateRequestId(ncType)`); upserts the Requests row.  The
`sendStageEmail` side effect is wrapped in try/catch in the source and has
no observable effect on the modelled state. -/
def postRequests (db : DB) (b : RequestsBody) (now : Nat) (today : String) :
    DB × ApiResult String :=
  if falsy b.type || falsy b.title || falsy b.status || falsy b.createdBy then
    (db, .err 400 "type, title, status, createdBy are required")
  else
    let (rid, counters1) := match b.requestId with
      | some r => if r = "" then generateRequestId b.ncType today db.counters
                  else (r, db.counters)
      | none => generateRequestId b.ncType today db.counters
    let requests1 := requestsUpsert db.requests rid (b.type.getD "")
      (b.title.getD "") (b.status.getD "") (b.createdBy.getD "")
      (b.createdAt.getD now) (b.updatedAt.getD now)
    ({ db with requests := requests1, counters := counters1 }, .ok rid)

/-- `PATCH /api/requests/:id/status` (server.cjs): requires a truthy status,
then unconditionally `UPDATE dbo.Requests SET status=@status,
updatedAt=SYSUTCDATETIME() WHERE requestId=@id` — no role, decision or
current-status check of any kind.  `sendStageEmail` is try/caught. -/
def patchStatus (db : DB) (id : String) (status : Option String) (now : Nat) :
    DB × ApiResult Unit :=
  if falsy status then (db, .err 400 "status is required")
  else
    ({ db with requests := db.requests.map (fun r =>
        if r.requestId == id then
          { r with status := status.getD "", updatedAt := now } else r) },
     .ok ())

/-- Body of `POST /api/approvals`. -/
structure ApprovalsBody where
  requestId : Option String
  approverEmail : Option String
  role : Option String
  decision : Option String
  comment : Option String
  attachmentId : Option String
  timestamp : Option Nat
deriving DecidableEq

/-- `POST /api/approvals` (server.cjs): requires requestId, approverEmail,
role and decision to be truthy (comment is NOT required); binds
`comment || null` and `attachmentId || null`; then upserts keyed on
(requestId, approverEmail) with `ISNULL(@timestamp, SYSUTCDATETIME())`. -/
def postApprovals (db : DB) (b : ApprovalsBody) (now : Nat) :
    DB × ApiResult Unit :=
  if falsy b.requestId || falsy b.approverEmail || falsy b.role ||
      falsy b.decision then
    (db, .err 400 "requestId, approverEmail, role, decision are required")
  else
    let row : ApprovalRow :=
      ⟨b.requestId.getD "", b.approverEmail.getD "", b.role.getD "",
       b.decision.getD "", orNull b.comment, orNull b.attachmentId,
       b.timestamp.getD now⟩
    let approvals1 := upsertBy
      (fun a => a.requestId == row.requestId &&
                a.approverEmail == row.approverEmail) row db.approvals
    ({ db with approvals := approvals1 }, .ok ())

/-- Body of `POST /api/history`. -/
structure HistoryBody where
  requestId : Option String
  action : Option String
  user : Option String
  timestamp : Option Nat
  metadata : Option String
deriving DecidableEq

/-- `POST /api/history` (server.cjs): requires requestId, action and user to
be truthy; then a plain `INSERT INTO dbo.HistoryLogs` with
`timestamp ? new Date(timestamp) : new Date()`.  The table's primary key
PK_History (requestId, timestamp) makes the INSERT raise on a duplicate key;
the endpoint's catch turns that into `fail(res, 500, ...)`.  No UPDATE or
DELETE statement on HistoryLogs exists anywhere in the server. -/
def postHistory (db : DB) (b : HistoryBody) (now : Nat) :
    DB × ApiResult Unit :=
  if falsy b.requestId || falsy b.action || falsy b.user then
    (db, .err 400 "requestId, action, user are required")
  else if db.history.any (fun h => h.requestId == b.requestId.getD "" &&
      h.timestamp == b.timestamp.getD now) then
    (db, .err 500 "Failed to save history log")
  else
    ({ db with history := (db.history ++
        [⟨b.requestId.getD "", b.timestamp.getD now, b.action.getD "",
          b.user.getD "", orNull b.metadata⟩]) }, .ok ())

/-- Body of `POST /api/plant-details`. -/
structure PlantBody where
  requestId : Option String
  version : Option Nat
  companyCode : Option String
  gstNumber : Option String
  gstCertificate : Option String
  plantCode : Option String
  nameOfPlant : Option String
  addressOfPlant : Option String
  purchaseOrganization : Option String
  nameOfPurchaseOrganization : Option String
  salesOrganization : Option String
  nameOfSalesOrganization : Option String
  profitCenter : Option String
  nameOfProfitCenter : Option String
  costCenters : Option String
  nameOfCostCenters : Option String
  projectCode : Option String
  projectCodeDescription : Option String
  storageLocationCode : Option String
  storageLocationDescription : Option String
deriving DecidableEq

/-- `POST /api/plant-details` (server.cjs): requires requestId, version,
companyCode, plantCode and nameOfPlant to be present and non-empty
(`d[k] == null || d[k] === ""`); then `IF EXISTS (... requestId AND version)
UPDATE <all non-key columns> ELSE INSERT` — an existing (requestId, version)
row is silently overwritten, no conflict is reported.
`sendConfirmationEmail` is wrapped in try/catch in the source and has no
observable effect on the modelled state. -/
def postPlantDetails (db : DB) (b : PlantBody) :
    DB × ApiResult (String × Nat) :=
  if falsy b.requestId then (db, .err 400 "requestId is required")
  else if b.version.isNone then (db, .err 400 "version is required")
  else if falsy b.companyCode then (db, .err 400 "companyCode is required")
  else if falsy b.plantCode then (db, .err 400 "plantCode is required")
  else if falsy b.nameOfPlant then (db, .err 400 "nameOfPlant is required")
  else
    let rid := b.requestId.getD ""
    let v := b.version.getD 0
    let row : PlantRow :=
      ⟨rid, v, b.companyCode, b.gstNumber, b.gstCertificate, b.plantCode,
       b.nameOfPlant, b.addressOfPlant, b.purchaseOrganization,
       b.nameOfPurchaseOrganization, b.salesOrganization,
       b.nameOfSalesOrganization, b.profitCenter, b.nameOfProfitCenter,
       b.costCenters, b.nameOfCostCenters, b.projectCode,
       b.projectCodeDescription, b.storageLocationCode,
       b.storageLocationDescription⟩
    let plantDetails1 := upsertBy
      (fun r => r.requestId == rid && r.version == v) row db.plantDetails
    ({ db with plantDetails := plantDetails1 }, .ok (rid, v))

/-- `addApproval` from `src/lib/storage.ts`: computes one timestamp, POSTs
`/api/approvals`, and then — with no surrounding try/catch — POSTs
`/api/history` with the same timestamp and action approve/reject.  A failure
of the history POST therefore rejects `addApproval` even though the Approvals
upsert has already been committed.  The `JSON.stringify` of the metadata
object is abstracted to a separator-joined string. -/
def addApproval (db : DB) (requestId approverEmail role decision comment :
    String) (attachmentId : Option String) (now : Nat) :
    DB × ApiResult Unit :=
  let (db1, r1) := postApprovals db
    ⟨some requestId, some approverEmail, some role, some decision,
     some comment, attachmentId, some now⟩ now
  match r1 with
  | .err c m => (db1, .err c m)
  | .ok _ =>
    let action := if decision == "approve" then "approve" else "reject"
    let (db2, r2) := postHistory db1
      ⟨some requestId, some action, some approverEmail, some now,
       some (comment ++ ";" ++ role ++ ";" ++ decision)⟩ now
    match r2 with
    | .err c m => (db2, .err c m)
    | .ok _ => (db2, .ok ())

/-- `updateRequestStatus` from `src/lib/storage.ts`: a thin wrapper over
`PATCH /api/requests/:id/status`. -/
def updateRequestStatus (db : DB) (requestId status : String) (now : Nat) :
    DB × ApiResult Unit :=
  patchStatus db requestId (some status) now

/-- `getNextStatus` from the ApprovalDashboard: any rejection goes to
`rejected`; an approval advances along the hardcoded approvalFlow map, and
for a status outside the map the current status is returned unchanged. -/
def getNextStatus (currentStatus decision : String) : String :=
  if decision == "reject" then "rejected"
  else
    match currentStatus with
    | "pending-secretary" => "pending-siva"
    | "pending-siva" => "pending-raghu"
    | "pending-raghu" => "pending-manoj"
    | "pending-manoj" => "approved"
    | s => s

/-- `statusRoleMap` lookup inside `canApprove` (ApprovalDashboard). -/
def statusRoleMap (status : String) : Option String :=
  match status with
  | "pending-secretary" => some "secretary"
  | "pending-siva" => some "siva"
  | "pending-raghu" => some "raghu"
  | "pending-manoj" => some "manoj"
  | _ => none

/-- `canApprove` from the ApprovalDashboard: true exactly when the role
mapped to the request's status equals the logged-in user's role.  It is used
only to filter which requests are listed as pending; `handleApproval` itself
never consults it. -/
def canApprove (status userRole : String) : Bool :=
  statusRoleMap status == some userRole

/-- Outcome of the ApprovalDashboard's `handleApproval`. -/
inductive HandleResult where
  /-- The empty-comment guard fired (destructive toast, early return). -/
  | validationError
  /-- `requests.find` produced nothing; silent early return. -/
  | noRequest
  /-- An awaited API call rejected; the catch branch toasts an error. -/
  | apiError
  /-- The success toast: approval recorded and status updated. -/
  | success
deriving DecidableEq

/-- `handleApproval` from the ApprovalDashboard (part of the dashboards):
guards on a non-blank comment BEFORE any API call; looks the request up in
the loaded list (modelled as reading `db.requests`); calls `addApproval`;
then computes `getNextStatus(request.status, decision)` and PATCHes it.
Note: no role or status authorization of any kind is performed here. -/
def handleApproval (db : DB) (requestId userEmail userRole decision
    comment : String) (now : Nat) : DB × HandleResult :=
  if jsTrim comment = "" then (db, .validationError)
  else
    match db.requests.find? (fun r => r.requestId == requestId) with
    | none => (db, .noRequest)
    | some request =>
      let (db1, r1) := addApproval db requestId userEmail userRole decision
        comment none now
      match r1 with
      | .err _ _ => (db1, .apiError)
      | .ok _ =>
        let nextStatus := getNextStatus request.status decision
        let (db2, r2) := updateRequestStatus db1 requestId nextStatus now
        match r2 with
        | .err _ _ => (db2, .apiError)
        | .ok _ => (db2, .success)

/-- The `saveRequest` body built by `PlantCodeForm.handleSubmit`
(`src/components/forms/PlantCodeForm.tsx`).  Both branches send
`status: "pending-siva"`: editing an existing (non-change) request keeps its
id, while a new or change request omits the id and passes `ncType`. -/
def plantSubmitBody (existing : Option RequestRow) (isChangeRequest : Bool)
    (plantCode nameOfPlant userEmail : String) (now : Nat) : RequestsBody :=
  let title := if isChangeRequest then
      "Change Request - Plant Code: " ++ plantCode ++ " - " ++ nameOfPlant
    else "Plant Code: " ++ plantCode ++ " - " ++ nameOfPlant
  match existing, isChangeRequest with
  | some req, false =>
    ⟨some req.requestId, some "plant", some title, some "pending-siva",
     some userEmail, none, some req.createdAt, some now⟩
  | _, _ =>
    ⟨none, some "plant", some title, some "pending-siva", some userEmail,
     some (if isChangeRequest then "C" else "N"), some now, some now⟩

/-- The `saveRequest` body built by `CompanyCodeForm.handleSubmit`: the same
two branches as the plant form, but with `status: "pending-secretary"`. -/
def companySubmitBody (existing : Option RequestRow) (isChangeRequest : Bool)
    (companyCode nameOfCompanyCode userEmail : String) (now : Nat) :
    RequestsBody :=
  let title := if isChangeRequest then
      "Change Request - Company Code: " ++ companyCode ++ " - " ++
        nameOfCompanyCode
    else "Company Code: " ++ companyCode ++ " - " ++ nameOfCompanyCode
  match existing, isChangeRequest with
  | some req, false =>
    ⟨some req.requestId, some "company", some title, some "pending-secretary",
     some userEmail, none, some req.createdAt, some now⟩
  | _, _ =>
    ⟨none, some "company", some title, some "pending-secretary",
     some userEmail, some (if isChangeRequest then "C" else "N"), some now,
     some now⟩

/-- A field-data snapshot as handled by the RequestDetailsDialog: one stored
version (PlantCodeDetails | CompanyCodeDetails row) abstracted to its version
number and its field map.  A field absent from the map plays the role of a
null/undefined value. -/
structure Snapshot where
  version : Nat
  fields : List (String × String)
deriving DecidableEq

/-- Field read with normalization: null/undefined/empty all collapse to the
empty-string sentinel. -/
def getField (s : Snapshot) (f : String) : String :=
  match s.fields.find? (fun kv => kv.1 == f) with
  | some kv => kv.2
  | none => ""

/-- Camel-case field name to space-separated title case
(`nameOfPlant` becomes "Name Of Plant"). -/
def camelToLabel (f : String) : String :=
  let rec spread : List Char → List Char
    | [] => []
    | c :: cs => if c.isUpper then ' ' :: c :: spread cs else c :: spread cs
  match f.data with
  | [] => ""
  | c :: cs => String.mk (c.toUpper :: spread cs)

/-- The canonical plant field list: the PlantCodeDetails columns minus the
bookkeeping fields requestId/version (17 fields). -/
def plantFields : List String :=
  ["companyCode", "gstCertificate", "plantCode", "nameOfPlant",
   "addressOfPlant", "purchaseOrganization", "nameOfPurchaseOrganization",
   "salesOrganization", "nameOfSalesOrganization", "profitCenter",
   "nameOfProfitCenter", "costCenters", "nameOfCostCenters", "projectCode",
   "projectCodeDescription", "storageLocationCode",
   "storageLocationDescription"]

/-- The canonical company field list: the CompanyCodeDetails columns minus
requestId/version (11 fields). -/
def companyFields : List String :=
  ["companyCode", "nameOfCompanyCode", "shareholdingPercentage", "gstNumber",
   "cinNumber", "panNumber", "gstCertificate", "cin", "pan", "segment",
   "nameOfSegment"]

/-- One entry of a change list. -/
structure FieldChange where
  field : String
  label : String
  oldValue : String
  newValue : String
deriving DecidableEq

/-- Result of the change-detection engine. -/
structure CompareResult where
  hasChanges : Bool
  changes : List FieldChange
  changedFields : List String
deriving DecidableEq

/-- Modelled from the spec: `compareObjects` lives in
`src/lib/changeTracking.ts`, which is not among the provided source files
(only its callers are).  Following spec section 4.2: enumerate the canonical
field list for the type, normalize both sides (null/undefined/empty are one
sentinel), mark a field changed when the normalized values differ and at
least one side is non-empty, label changed fields by camel-case-to-title
conversion, and set hasChanges when the change list is non-empty. -/
def compareObjects (oldSnap newSnap : Snapshot) (t : String) : CompareResult :=
  let fieldList := if t == "plant" then plantFields else companyFields
  let changes := fieldList.filterMap (fun f =>
    let o := getField oldSnap f
    let n := getField newSnap f
    if o ≠ n ∧ (o ≠ "" ∨ n ≠ "") then some ⟨f, camelToLabel f, o, n⟩
    else none)
  ⟨!changes.isEmpty, changes, changes.map (fun ch => ch.field)⟩

/-- Descending-version order used by the RequestDetailsDialog's
`sortedVersions` memo (`(a, b) => b.version - a.version`). -/
def versionDesc (a b : Snapshot) : Prop := b.version ≤ a.version

instance : DecidableRel versionDesc := fun a b => Nat.decLe b.version a.version

instance : IsTotal Snapshot versionDesc :=
  ⟨fun a b => Nat.le_total b.version a.version⟩

instance : IsTrans Snapshot versionDesc :=
  ⟨fun _ _ _ h1 h2 => Nat.le_trans h2 h1⟩

/-- `sortedVersions` from the RequestDetailsDialog: the loaded versions
sorted by version number descending (the JS comparator
`b.version - a.version`; tie order is irrelevant for distinct versions). -/
def sortedVersions (versions : List Snapshot) : List Snapshot :=
  List.insertionSort versionDesc versions

/-- The dialog's `diff` memo: with at least two sorted versions, compare
`sortedVersions[1]` (prev, old side) against `sortedVersions[0]` (latest,
new side); otherwise report no changes. -/
def dialogDiff (versions : List Snapshot) (t : String) : CompareResult :=
  match sortedVersions versions with
  | latest :: prev :: _ => compareObjects prev latest t
  | _ => ⟨false, [], []⟩

/-- Convenience read: the first Requests row with the given id. -/
def findRequest (db : DB) (rid : String) : Option RequestRow :=
  db.requests.find? (fun r => r.requestId == rid)

/-- Convenience read: the stored status of a request. -/
def statusOf (db : DB) (rid : String) : Option String :=
  (findRequest db rid).map (fun r => r.status)

/-- Convenience read: the stored type of a request. -/
def typeOf (db : DB) (rid : String) : Option String :=
  (findRequest db rid).map (fun r => r.type)

theorem filter_of_any_eq_false {α : Type} (key : α → Bool) (l : List α)
    (h : l.any key = false) : l.filter key = [] := by
  induction l with
  | nil => rfl
  | cons a t ih =>
    simp only [List.any_cons, Bool.or_eq_false_iff] at h
    simp [List.filter_cons, h.1, ih h.2]

theorem filter_map_replace {α : Type} (key : α → Bool) (row : α) (l : List α)
    (hrow : key row = true) :
    (l.map (fun a => if key a then row else a)).filter key =
      (l.filter key).map (fun _ => row) := by
  induction l with
  | nil => rfl
  | cons a t ih =>
    cases hka : key a <;>
      simp [List.filter_cons, hka, hrow, ih]

/-- After an upsert whose key matches at most one existing row (the
primary-key invariant of the real table), exactly the upserted row matches
the key. -/
theorem filter_not_map_replace {α : Type} (key : α → Bool) (row : α)
    (l : List α) (hrow : key row = true) :
    (l.map (fun a => if key a then row else a)).filter (fun a => !key a) =
      l.filter (fun a => !key a) := by
  induction l with
  | nil => rfl
  | cons a t ih =>
    cases hka : key a <;>
      simp [List.filter_cons, hka, hrow, ih]

/-- After an upsert whose key matches at most one existing row (the
primary-key invariant of the real table), exactly the upserted row matches
the key. -/
theorem filter_upsertBy {α : Type} (key : α → Bool) (row : α) (l : List α)
    (hrow : key row = true) (hlen : (l.filter key).length ≤ 1) :
    (upsertBy key row l).filter key = [row] := by
  by_cases hany : l.any key = true
  · rw [upsertBy, if_pos hany, filter_map_replace key row l hrow]
    obtain ⟨x, hx, hkx⟩ := List.any_eq_true.mp hany
    have hmem : x ∈ l.filter key := List.mem_filter.mpr ⟨hx, hkx⟩
    cases hfl : l.filter key with
    | nil => rw [hfl] at hmem; cases hmem
    | cons y ys =>
      rw [hfl] at hlen
      have hys : ys = [] := by
        cases ys with
        | nil => rfl
        | cons z zs => simp at hlen
      simp [hys]
  · have hf : l.any key = false := by
      revert hany; cases l.any key <;> simp
    rw [upsertBy, if_neg hany]
    simp [List.filter_append, filter_of_any_eq_false key l hf,
      List.filter_cons, hrow]

/-- Rows not matching the upsert key are untouched by an upsert. -/
theorem filter_not_upsertBy {α : Type} (key : α → Bool) (row : α)
    (l : List α) (hrow : key row = true) :
    (upsertBy key row l).filter (fun a => !key a) =
      l.filter (fun a => !key a) := by
  by_cases hany : l.any key = true
  · rw [upsertBy, if_pos hany, filter_not_map_replace key row l hrow]
  · rw [upsertBy, if_neg hany]
    simp [List.filter_append, List.filter_cons, hrow]

theorem find?_append_singleton {α : Type} (p : α → Bool) (l : List α)
    (row : α) (hl : l.any p = false) (hrow : p row = true) :
    (l ++ [row]).find? p = some row := by
  induction l with
  | nil => simp [List.find?_cons, hrow]
  | cons a t ih =>
    simp only [List.any_cons, Bool.or_eq_false_iff] at hl
    simp [List.find?_cons, hl.1, ih hl.2]


/-- Effect of a conditional row rewrite (`UPDATE ... WHERE key`) on the first
row found under the same key: when `m` rewrites key rows by `f` and leaves
others alone, and `f` preserves the key, the lookup sees `f` of the first
match. -/
theorem find?_map_key {α β : Type} (p : α → Bool) (m f : α → α) (g : α → β)
    (hm : ∀ a, m a = if p a then f a else a)
    (hpt : ∀ a, p a = true → p (f a) = true) (l : List α) :
    ((l.map m).find? p).map g = (l.find? p).map (fun a => g (f a)) := by
  induction l with
  | nil => rfl
  | cons a t ih =>
    cases hpa : p a with
    | true =>
      have h1 : m a = f a := by rw [hm a, if_pos hpa]
      simp [List.find?_cons, h1, hpt a hpa, hpa]
    | false =>
      have h1 : m a = a := by rw [hm a, if_neg (by simp [hpa])]
      simp only [List.map_cons, List.find?_cons, h1, hpa]
      exact ih

/-- The requests upsert always leaves the row found under `rid` carrying the
type and status supplied by the caller (both the UPDATE and INSERT branch
write them). -/
theorem requestsUpsert_stores (l : List RequestRow) (rid ty ti st cb : String)
    (ca ua : Nat) :
    (((requestsUpsert l rid ty ti st cb ca ua).find?
        (fun r => r.requestId == rid)).map (fun r => (r.type, r.status))) =
      some (ty, st) := by
  by_cases hany : l.any (fun r => r.requestId == rid) = true
  · rw [requestsUpsert, if_pos hany,
      find?_map_key (fun r => r.requestId == rid)
        (fun r => if r.requestId == rid then
          { r with type := ty, title := ti, status := st, createdBy := cb,
                   updatedAt := ua } else r)
        (fun r =>
          { r with type := ty, title := ti, status := st, createdBy := cb,
                   updatedAt := ua })
        (fun r => (r.type, r.status)) (fun a => rfl)
        (fun a ha => by simpa using ha) l]
    have hsome : (l.find? (fun r => r.requestId == rid)).isSome := by
      rw [List.find?_isSome]
      exact List.any_eq_true.mp hany
    obtain ⟨y, hy⟩ := Option.isSome_iff_exists.mp hsome
    rw [hy]; rfl
  · have hf : l.any (fun r => r.requestId == rid) = false := by
      revert hany; cases l.any (fun r => r.requestId == rid) <;> simp
    rw [requestsUpsert, if_neg hany,
      find?_append_singleton _ l _ hf (by simp)]
    rfl

/-- The status PATCH rewrites the status of the row found under the id. -/
theorem find?_map_setStatus (l : List RequestRow) (id st : String)
    (now : Nat) :
    ((l.map (fun r => if r.requestId == id then
        { r with status := st, updatedAt := now } else r)).find?
      (fun r => r.requestId == id)).map (fun r => r.status) =
      (l.find? (fun r => r.requestId == id)).map (fun _ => st) :=
  find?_map_key (fun r => r.requestId == id)
    (fun r => if r.requestId == id then
      { r with status := st, updatedAt := now } else r)
    (fun r => { r with status := st, updatedAt := now })
    (fun r => r.status) (fun a => rfl) (fun a ha => by simpa using ha) l

/-- The MERGE of `generateRequestId` increments the matched counter in
place: afterwards the (prefix, day) lookup sees the incremented value. -/
theorem find?_map_incr (l : List CounterRow) (p d : String) :
    ((l.map (fun c => if c.pfx == p && c.yyyymmdd == d then
        { c with lastSeq := c.lastSeq + 1 } else c)).find?
      (fun c => c.pfx == p && c.yyyymmdd == d)).map (fun c => c.lastSeq) =
      (l.find? (fun c => c.pfx == p && c.yyyymmdd == d)).map
        (fun c => c.lastSeq + 1) :=
  find?_map_key (fun c => c.pfx == p && c.yyyymmdd == d)
    (fun c => if c.pfx == p && c.yyyymmdd == d then
      { c with lastSeq := c.lastSeq + 1 } else c)
    (fun c => { c with lastSeq := c.lastSeq + 1 })
    (fun c => c.lastSeq) (fun a => rfl) (fun a ha => by simpa using ha) l

/-- With all four required fields non-empty, `POST /api/approvals` reduces to
the keyed upsert and reports ok. -/
theorem postApprovals_ok (db : DB) (rid email role dec : String)
    (c att : Option String) (ts : Option Nat) (now : Nat)
    (hrid : rid ≠ "") (hemail : email ≠ "") (hrole : role ≠ "")
    (hdec : dec ≠ "") :
    postApprovals db ⟨some rid, some email, some role, some dec, c, att, ts⟩
        now =
      ({ db with approvals := (upsertBy
          (fun a => a.requestId == rid && a.approverEmail == email)
          ⟨rid, email, role, dec, orNull c, orNull att, ts.getD now⟩
          db.approvals) }, .ok ()) := by
  simp [postApprovals, falsy, hrid, hemail, hrole, hdec]

/-- With the required fields non-empty and no row already stored under the
(requestId, timestamp) key, `POST /api/history` appends one row and reports
ok. -/
theorem postHistory_ok (db : DB) (rid act usr : String) (ts : Option Nat)
    (meta : Option String) (now : Nat) (hrid : rid ≠ "") (hact : act ≠ "")
    (husr : usr ≠ "")
    (hfresh : db.history.any (fun h => h.requestId == rid &&
      h.timestamp == ts.getD now) = false) :
    postHistory db ⟨some rid, some act, some usr, ts, meta⟩ now =
      ({ db with history := db.history ++
          [⟨rid, ts.getD now, act, usr, orNull meta⟩] }, .ok ()) := by
  simp [postHistory, falsy, hrid, hact, husr, hfresh]

/-- When both POSTs succeed, `addApproval` upserts the approval row and
appends the audit-history row, all at the caller's single timestamp. -/
theorem addApproval_ok (db : DB) (rid email role dec c : String)
    (att : Option String) (now : Nat) (hrid : rid ≠ "") (hemail : email ≠ "")
    (hrole : role ≠ "") (hdec : dec ≠ "")
    (hfresh : db.history.any
      (fun h => h.requestId == rid && h.timestamp == now) = false) :
    addApproval db rid email role dec c att now =
      ({ db with
          approvals := (upsertBy
            (fun a => a.requestId == rid && a.approverEmail == email)
            ⟨rid, email, role, dec, orNull (some c), orNull att, now⟩
            db.approvals),
          history := db.history ++
            [⟨rid, now, if dec == "approve" then "approve" else "reject",
              email, orNull (some (c ++ ";" ++ role ++ ";" ++ dec))⟩] },
       .ok ()) := by
  cases hdd : dec == "approve" <;>
    simp [addApproval, postApprovals, postHistory, falsy, hrid, hemail,
      hrole, hdec, hfresh, hdd]

/-- A non-empty status never becomes empty under `getNextStatus`. -/
theorem getNextStatus_ne_empty (s d : String) (h : s ≠ "") :
    getNextStatus s d ≠ "" := by
  unfold getNextStatus
  by_cases hd : (d == "reject") = true
  · simp [hd]
  · have hd' : (d == "reject") = false := by
      revert hd; cases d == "reject" <;> simp
    rw [if_neg (by simp [hd'])]
    split <;> simp_all

/-- C3: recording an approval or rejection decision with a missing or empty
(blank) comment fails at the submission boundary before any state change:
`handleApproval` returns its validation error with the store untouched — no
Approval row is written, no history row is appended, and the request's
status is unchanged.  (The comment-mandatory check lives in the client
submission flow; it runs before any API call is made.) -/
theorem C3_empty_comment_fails_before_any_state_change
    (db : DB) (requestId userEmail userRole decision comment : String)
    (now : Nat) (h : jsTrim comment = "") :
    handleApproval db requestId userEmail userRole decision comment now =
      (db, .validationError) := by
  unfold handleApproval
  rw [if_pos h]

/-- Witness for C3 at a concrete blank comment and store. -/
theorem C3_witness :
    (jsTrim "   " = "") ∧
    handleApproval ⟨[⟨"R1", "plant", "T", "pending-secretary", "u@x", 0, 0⟩],
        [], [], [], []⟩ "R1" "s@x" "secretary" "approve" "   " 10 =
      (⟨[⟨"R1", "plant", "T", "pending-secretary", "u@x", 0, 0⟩], [], [], [],
        []⟩, .validationError) :=
  ⟨by decide,
   C3_empty_comment_fails_before_any_state_change _ _ _ _ _ _ _ (by decide)⟩

/-- With a non-empty status, the status PATCH reduces to the row rewrite
and reports ok. -/
theorem patchStatus_ok (db : DB) (id st : String) (now : Nat)
    (hst : st ≠ "") :
    patchStatus db id (some st) now =
      ({ db with requests := (db.requests.map (fun r =>
          if r.requestId == id then { r with status := st, updatedAt := now }
          else r)) }, .ok ()) := by
  simp [patchStatus, falsy, hst]

/-- C2 (amended): no (status, role, decision) authorization exists on the
transition path.  For an existing request, `handleApproval` with ANY role
and any non-empty decision and comment (at a fresh history timestamp)
succeeds — no AuthorizationError of any kind — and writes the status
`getNextStatus(status, decision)` regardless of whether the (status, role,
decision) triple is in the transition table.  The table is reflected only in
the UI listing filter `canApprove`; the status PATCH endpoint itself checks
nothing. -/
theorem C2_no_authorization_on_transition_path
    (db : DB) (req : RequestRow)
    (requestId userEmail userRole decision comment : String) (now : Nat)
    (hc : ¬ jsTrim comment = "")
    (hfind : db.requests.find? (fun r => r.requestId == requestId) = some req)
    (hrid : requestId ≠ "") (hemail : userEmail ≠ "") (hrole : userRole ≠ "")
    (hdec : decision ≠ "") (hst : req.status ≠ "")
    (hfresh : db.history.any
      (fun h => h.requestId == requestId && h.timestamp == now) = false) :
    (handleApproval db requestId userEmail userRole decision comment
        now).2 = .success ∧
    statusOf (handleApproval db requestId userEmail userRole decision comment
        now).1 requestId = some (getNextStatus req.status decision) := by
  have hns : getNextStatus req.status decision ≠ "" :=
    getNextStatus_ne_empty _ _ hst
  have hset : ((db.requests.map (fun r => if r.requestId == requestId then
        { r with status := getNextStatus req.status decision,
                 updatedAt := now } else r)).find?
      (fun r => r.requestId == requestId)).map (fun r => r.status) =
      some (getNextStatus req.status decision) := by
    rw [find?_map_setStatus, hfind]; rfl
  unfold handleApproval
  rw [if_neg hc, hfind]
  rw [addApproval_ok db requestId userEmail userRole decision comment none
    now hrid hemail hrole hdec hfresh]
  simp only [updateRequestStatus]
  rw [patchStatus_ok _ requestId _ now hns]
  exact ⟨rfl, hset⟩

/-- C2 counterexample: (pending-secretary, raghu, approve) is NOT in the
transition table (canApprove is false), yet the attempted transition does
not fail with any authorization error — it succeeds and the status changes
to pending-siva.  This refutes the claim that every off-table (status, role,
decision) triple fails with AuthorizationError leaving the status
unchanged. -/
theorem C2_counterexample :
    canApprove "pending-secretary" "raghu" = false ∧
    (handleApproval ⟨[⟨"R1", "plant", "T", "pending-secretary", "u@x", 0, 0⟩],
        [], [], [], []⟩ "R1" "raghu@x" "raghu" "approve" "ok" 5).2 =
      .success ∧
    statusOf (handleApproval ⟨[⟨"R1", "plant", "T", "pending-secretary",
        "u@x", 0, 0⟩], [], [], [], []⟩ "R1" "raghu@x" "raghu" "approve" "ok"
        5).1 "R1" = some "pending-siva" := by
  decide

/-- Witness for the amended C2 theorem at a concrete store: a rejected
request is "approved" by role it, the call succeeds and the status stays
rejected (getNextStatus leaves unknown statuses in place) — still no error
of any kind. -/
theorem C2_witness :
    (¬ jsTrim "fine" = "") ∧
    ((⟨[⟨"R7", "company", "T", "rejected", "u@x", 0, 0⟩], [], [], [],
        []⟩ : DB).requests.find? (fun r => r.requestId == "R7") =
      some ⟨"R7", "company", "T", "rejected", "u@x", 0, 0⟩) ∧
    ((handleApproval ⟨[⟨"R7", "company", "T", "rejected", "u@x", 0, 0⟩], [],
        [], [], []⟩ "R7" "it@x" "it" "approve" "fine" 9).2 = .success ∧
      statusOf (handleApproval ⟨[⟨"R7", "company", "T", "rejected", "u@x", 0,
        0⟩], [], [], [], []⟩ "R7" "it@x" "it" "approve" "fine" 9).1 "R7" =
        some (getNextStatus "rejected" "approve")) :=
  ⟨by decide, by decide,
   C2_no_authorization_on_transition_path _
     ⟨"R7", "company", "T", "rejected", "u@x", 0, 0⟩ _ _ _ _ _ _
     (by decide) (by decide) (by decide) (by decide) (by decide) (by decide)
     (by decide) (by decide)⟩

/-- C1 (amended): every company submission — new, edit/resubmission, change
request — writes status pending-secretary, but every plant submission via
PlantCodeForm writes status pending-siva in both of its branches, entering
the chain at the siva stage and skipping the secretarial stage; and whatever
status the submission body carries is exactly what the requests upsert
stores. -/
theorem C1_submission_statuses :
    (∀ (existing : Option RequestRow) (isChange : Bool)
       (plantCode nameOfPlant userEmail : String) (now : Nat),
       (plantSubmitBody existing isChange plantCode nameOfPlant userEmail
         now).status = some "pending-siva") ∧
    (∀ (existing : Option RequestRow) (isChange : Bool)
       (companyCode nameOfCompanyCode userEmail : String) (now : Nat),
       (companySubmitBody existing isChange companyCode nameOfCompanyCode
         userEmail now).status = some "pending-secretary") ∧
    (∀ (db : DB) (b : RequestsBody) (now : Nat) (today : String),
       falsy b.type = false → falsy b.title = false →
       falsy b.status = false → falsy b.createdBy = false →
       ∃ rid, (postRequests db b now today).2 = .ok rid ∧
         statusOf (postRequests db b now today).1 rid =
           some (b.status.getD "")) := by
  refine ⟨?_, ?_, ?_⟩
  · intro existing isChange pc np ue now
    cases existing <;> cases isChange <;> rfl
  · intro existing isChange cc nc ue now
    cases existing <;> cases isChange <;> rfl
  · intro db b now today h1 h2 h3 h4
    unfold postRequests
    rw [h1, h2, h3, h4]
    simp only [Bool.or_self, Bool.or_false, Bool.false_or,
      Bool.false_eq_true, if_false]
    rcases hgen : (match b.requestId with
      | some r => if r = "" then generateRequestId b.ncType today db.counters
                  else (r, db.counters)
      | none => generateRequestId b.ncType today db.counters) with ⟨rid, c1⟩
    rw [hgen]
    refine ⟨rid, rfl, ?_⟩
    have hstore := requestsUpsert_stores db.requests rid (b.type.getD "")
      (b.title.getD "") (b.status.getD "") (b.createdBy.getD "")
      (b.createdAt.getD now) (b.updatedAt.getD now)
    rw [Option.map_eq_some'] at hstore
    obtain ⟨y, hy, hpair⟩ := hstore
    rw [Prod.mk.injEq] at hpair
    rw [statusOf, findRequest]
    simp only []
    rw [hy]
    simp [hpair.2]

/-- C1 counterexample: a fresh plant submission writes pending-siva, not
pending-secretary, refuting the claim that every documented submission
enters the chain at pending-secretary. -/
theorem C1_counterexample :
    (plantSubmitBody none false "P100" "Alpha" "u@x" 0).status =
      some "pending-siva" ∧
    (some "pending-siva" : Option String) ≠ some "pending-secretary" := by
  decide

/-- Witness for C1 at concrete inputs, including a server round trip of a
company change-request body. -/
theorem C1_witness :
    ((plantSubmitBody none true "P" "NP" "u@x" 3).status =
      some "pending-siva") ∧
    ((companySubmitBody none true "C" "NC" "u@x" 3).status =
      some "pending-secretary") ∧
    (∃ rid,
      (postRequests ⟨[], [], [], [], []⟩ ⟨some "R9", some "company",
        some "T", some "pending-secretary", some "u@x", none, none, none⟩ 7
        "20250101").2 = .ok rid ∧
      statusOf (postRequests ⟨[], [], [], [], []⟩ ⟨some "R9", some "company",
        some "T", some "pending-secretary", some "u@x", none, none, none⟩ 7
        "20250101").1 rid = some "pending-secretary") :=
  ⟨C1_submission_statuses.1 none true "P" "NP" "u@x" 3,
   C1_submission_statuses.2.1 none true "C" "NC" "u@x" 3,
   C1_submission_statuses.2.2 _ _ 7 "20250101" (by decide) (by decide)
     (by decide) (by decide)⟩

/-- C5 (amended): the requests upsert does not protect `type` — on every
save (update branch included) the stored type becomes exactly the
caller-supplied payload type.  Immutability holds only insofar as callers
resend the original type. -/
theorem C5_type_overwritten_on_every_save (db : DB) (b : RequestsBody)
    (now : Nat) (today : String) (rid : String)
    (h1 : falsy b.type = false) (h2 : falsy b.title = false)
    (h3 : falsy b.status = false) (h4 : falsy b.createdBy = false)
    (hbr : b.requestId = some rid) (hrid : rid ≠ "") :
    (postRequests db b now today).2 = .ok rid ∧
    typeOf (postRequests db b now today).1 rid = some (b.type.getD "") := by
  unfold postRequests
  rw [h1, h2, h3, h4]
  simp only [Bool.or_self, Bool.false_eq_true, if_false]
  simp only [hbr, if_neg hrid]
  refine ⟨by simp, ?_⟩
  have hstore := requestsUpsert_stores db.requests rid (b.type.getD "")
    (b.title.getD "") (b.status.getD "") (b.createdBy.getD "")
    (b.createdAt.getD now) (b.updatedAt.getD now)
  rw [Option.map_eq_some'] at hstore
  obtain ⟨y, hy, hpair⟩ := hstore
  rw [Prod.mk.injEq] at hpair
  rw [typeOf, findRequest]
  simp only []
  rw [hy]
  simp [hpair.1]

/-- C5 counterexample: saving an existing request R1 (stored type plant)
with payload type company succeeds and flips the stored type to company —
`type` is not immutable after creation. -/
theorem C5_counterexample :
    typeOf ⟨[⟨"R1", "plant", "T", "pending-secretary", "u@x", 0, 0⟩], [], [],
        [], []⟩ "R1" = some "plant" ∧
    (postRequests ⟨[⟨"R1", "plant", "T", "pending-secretary", "u@x", 0, 0⟩],
        [], [], [], []⟩ ⟨some "R1", some "company", some "T2",
        some "pending-secretary", some "u@x", none, none, none⟩ 9
        "20250101").2 = .ok "R1" ∧
    typeOf (postRequests ⟨[⟨"R1", "plant", "T", "pending-secretary", "u@x",
        0, 0⟩], [], [], [], []⟩ ⟨some "R1", some "company", some "T2",
        some "pending-secretary", some "u@x", none, none, none⟩ 9
        "20250101").1 "R1" = some "company" := by
  decide

/-- Witness for the amended C5 theorem at a concrete store and payload. -/
theorem C5_witness :
    (postRequests ⟨[⟨"R2", "company", "T", "approved", "u@x", 0, 0⟩], [], [],
        [], []⟩ ⟨some "R2", some "plant", some "T3", some "rejected",
        some "v@x", none, none, none⟩ 4 "20250102").2 = .ok "R2" ∧
    typeOf (postRequests ⟨[⟨"R2", "company", "T", "approved", "u@x", 0, 0⟩],
        [], [], [], []⟩ ⟨some "R2", some "plant", some "T3", some "rejected",
        some "v@x", none, none, none⟩ 4 "20250102").1 "R2" = some "plant" :=
  C5_type_overwritten_on_every_save _ _ 4 "20250102" "R2" (by decide)
    (by decide) (by decide) (by decide) (by decide) (by decide)

/-- C4 (amended): a details write targeting an already-stored
(requestId, version) composite key does not fail — the endpoint reports ok
and the stored row's fields are silently replaced by the later write's
values (last write wins).  Same-version conflicts between two actors are
not detected. -/
theorem C4_same_version_write_overwrites (db : DB) (b : PlantBody)
    (rid : String) (v : Nat) (hbr : b.requestId = some rid) (hrid : rid ≠ "")
    (hbv : b.version = some v)
    (hcc : falsy b.companyCode = false) (hpc : falsy b.plantCode = false)
    (hnp : falsy b.nameOfPlant = false)
    (hpk : (db.plantDetails.filter (fun r => r.requestId == rid &&
      r.version == v)).length ≤ 1) :
    (postPlantDetails db b).2 = .ok (rid, v) ∧
    (postPlantDetails db b).1.plantDetails.filter
      (fun r => r.requestId == rid && r.version == v) =
      [⟨rid, v, b.companyCode, b.gstNumber, b.gstCertificate, b.plantCode,
        b.nameOfPlant, b.addressOfPlant, b.purchaseOrganization,
        b.nameOfPurchaseOrganization, b.salesOrganization,
        b.nameOfSalesOrganization, b.profitCenter, b.nameOfProfitCenter,
        b.costCenters, b.nameOfCostCenters, b.projectCode,
        b.projectCodeDescription, b.storageLocationCode,
        b.storageLocationDescription⟩] := by
  have h1 : falsy (some rid) = false := by simp [falsy, hrid]
  unfold postPlantDetails
  rw [hbr, hbv]
  simp only [h1, hcc, hpc, hnp, Bool.false_eq_true, if_false,
    Option.getD_some, Option.isNone_some]
  refine ⟨trivial, ?_⟩
  exact filter_upsertBy (fun r => r.requestId == rid && r.version == v)
    ⟨rid, v, b.companyCode, b.gstNumber, b.gstCertificate, b.plantCode,
      b.nameOfPlant, b.addressOfPlant, b.purchaseOrganization,
      b.nameOfPurchaseOrganization, b.salesOrganization,
      b.nameOfSalesOrganization, b.profitCenter, b.nameOfProfitCenter,
      b.costCenters, b.nameOfCostCenters, b.projectCode,
      b.projectCodeDescription, b.storageLocationCode,
      b.storageLocationDescription⟩
    db.plantDetails (by simp) hpk

/-- C4 counterexample: version 1 of R1 is stored with companyCode A and
nameOfPlant X; a second write to the SAME (R1, 1) key with different values
succeeds (ok, no conflict error) and the stored row now carries B and Y —
the loser's write silently overwrote instead of failing. -/
theorem C4_counterexample :
    (⟨[], [], [], [⟨"R1", 1, some "A", none, none, some "P", some "X", none,
        none, none, none, none, none, none, none, none, none, none, none,
        none⟩], []⟩ : DB).plantDetails.map (fun r => r.companyCode) =
      [some "A"] ∧
    (postPlantDetails ⟨[], [], [], [⟨"R1", 1, some "A", none, none, some "P",
        some "X", none, none, none, none, none, none, none, none, none, none,
        none, none, none⟩], []⟩ ⟨some "R1", some 1, some "B", none, none,
        some "P", some "Y", none, none, none, none, none, none, none, none,
        none, none, none, none, none⟩).2 = .ok ("R1", 1) ∧
    (postPlantDetails ⟨[], [], [], [⟨"R1", 1, some "A", none, none, some "P",
        some "X", none, none, none, none, none, none, none, none, none, none,
        none, none, none⟩], []⟩ ⟨some "R1", some 1, some "B", none, none,
        some "P", some "Y", none, none, none, none, none, none, none, none,
        none, none, none, none, none⟩).1.plantDetails.map
      (fun r => (r.companyCode, r.nameOfPlant)) = [(some "B", some "Y")] := by
  decide

/-- Witness for the amended C4 theorem at a concrete conflicting write. -/
theorem C4_witness :
    (postPlantDetails ⟨[], [], [], [⟨"R3", 2, some "A", none, none, some "P",
        some "X", none, none, none, none, none, none, none, none, none, none,
        none, none, none⟩], []⟩ ⟨some "R3", some 2, some "B2", none, none,
        some "P2", some "Y2", none, none, none, none, none, none, none, none,
        none, none, none, none, none⟩).2 = .ok ("R3", 2) ∧
    (postPlantDetails ⟨[], [], [], [⟨"R3", 2, some "A", none, none, some "P",
        some "X", none, none, none, none, none, none, none, none, none, none,
        none, none, none⟩], []⟩ ⟨some "R3", some 2, some "B2", none, none,
        some "P2", some "Y2", none, none, none, none, none, none, none, none,
        none, none, none, none, none⟩).1.plantDetails.filter
      (fun r => r.requestId == "R3" && r.version == 2) =
      [⟨"R3", 2, some "B2", none, none, some "P2", some "Y2", none, none,
        none, none, none, none, none, none, none, none, none, none, none⟩] :=
  C4_same_version_write_overwrites _ _ "R3" 2 (by decide) (by decide)
    (by decide) (by decide) (by decide) (by decide) (by decide)

/-- C7: after two successive recordDecision calls for the same
(requestId, approverEmail) pair, exactly one Approval row exists for that
pair, and its role, decision, comment, attachmentId and timestamp are the
second call's values — the upsert updates in place, no second historical
row is appended. -/
theorem C7_record_decision_last_write_wins (db : DB)
    (rid email role1 dec1 role2 dec2 : String) (c1 att1 c2 att2 :
    Option String) (ts1 ts2 : Option Nat) (now1 now2 : Nat)
    (hrid : rid ≠ "") (hemail : email ≠ "") (hrole1 : role1 ≠ "")
    (hdec1 : dec1 ≠ "") (hrole2 : role2 ≠ "") (hdec2 : dec2 ≠ "")
    (hpk : (db.approvals.filter (fun a => a.requestId == rid &&
      a.approverEmail == email)).length ≤ 1) :
    (postApprovals (postApprovals db ⟨some rid, some email, some role1,
        some dec1, c1, att1, ts1⟩ now1).1 ⟨some rid, some email, some role2,
        some dec2, c2, att2, ts2⟩ now2).2 = .ok () ∧
    ((postApprovals (postApprovals db ⟨some rid, some email, some role1,
        some dec1, c1, att1, ts1⟩ now1).1 ⟨some rid, some email, some role2,
        some dec2, c2, att2, ts2⟩ now2).1).approvals.filter
      (fun a => a.requestId == rid && a.approverEmail == email) =
      [⟨rid, email, role2, dec2, orNull c2, orNull att2, ts2.getD now2⟩] := by
  rw [postApprovals_ok db rid email role1 dec1 c1 att1 ts1 now1 hrid hemail
    hrole1 hdec1]
  rw [postApprovals_ok _ rid email role2 dec2 c2 att2 ts2 now2 hrid hemail
    hrole2 hdec2]
  refine ⟨rfl, ?_⟩
  have hfirst := filter_upsertBy
    (fun a => a.requestId == rid && a.approverEmail == email)
    ⟨rid, email, role1, dec1, orNull c1, orNull att1, ts1.getD now1⟩
    db.approvals (by simp) hpk
  exact filter_upsertBy
    (fun a => a.requestId == rid && a.approverEmail == email)
    ⟨rid, email, role2, dec2, orNull c2, orNull att2, ts2.getD now2⟩
    (upsertBy (fun a => a.requestId == rid && a.approverEmail == email)
      ⟨rid, email, role1, dec1, orNull c1, orNull att1, ts1.getD now1⟩
      db.approvals)
    (by simp) (by rw [hfirst]; simp)

/-- Witness for C7: the same approver decides twice on R1; one row remains,
carrying the second decision. -/
theorem C7_witness :
    (postApprovals (postApprovals ⟨[], [], [], [], []⟩ ⟨some "R1",
        some "a@x", some "secretary", some "approve", some "first", none,
        some 1⟩ 1).1 ⟨some "R1", some "a@x", some "secretary", some "reject",
        some "second", some "f2", some 2⟩ 2).2 = .ok () ∧
    ((postApprovals (postApprovals ⟨[], [], [], [], []⟩ ⟨some "R1",
        some "a@x", some "secretary", some "approve", some "first", none,
        some 1⟩ 1).1 ⟨some "R1", some "a@x", some "secretary", some "reject",
        some "second", some "f2", some 2⟩ 2).1).approvals.filter
      (fun a => a.requestId == "R1" && a.approverEmail == "a@x") =
      [⟨"R1", "a@x", "secretary", "reject", some "second", some "f2", 2⟩] :=
  C7_record_decision_last_write_wins ⟨[], [], [], [], []⟩ "R1" "a@x"
    "secretary" "approve" "secretary" "reject" (some "first") none
    (some "second") (some "f2") (some 1) (some 2) 1 2 (by decide) (by decide)
    (by decide) (by decide) (by decide) (by decide) (by decide)

/-- C10: the history endpoint only ever inserts — on success the new row is
appended and every pre-existing row is untouched; on any failure the store
is unchanged (no update, no delete, no merge); and when a row already exists
under the same (requestId, millisecond-timestamp) primary key, the second
append fails with the 500 store error and is rejected, not merged. -/
theorem C10_history_append_only (db : DB) (b : HistoryBody) (now : Nat)
    (rid : String) (ts : Nat) :
    ((postHistory db b now).2 = .ok () →
      (postHistory db b now).1.history = db.history ++
        [⟨b.requestId.getD "", b.timestamp.getD now, b.action.getD "",
          b.user.getD "", orNull b.metadata⟩]) ∧
    (∀ c m, (postHistory db b now).2 = .err c m →
      (postHistory db b now).1 = db) ∧
    (b.requestId = some rid → rid ≠ "" → falsy b.action = false →
      falsy b.user = false → b.timestamp = some ts →
      db.history.any (fun h => h.requestId == rid && h.timestamp == ts) =
        true →
      (postHistory db b now).2 = .err 500 "Failed to save history log" ∧
      (postHistory db b now).1 = db) := by
  unfold postHistory
  split
  · rename_i h1
    refine ⟨?_, ?_, ?_⟩
    · intro h; exact absurd h (by simp)
    · intro c m _; rfl
    · intro hbr hrid hact husr hts hdup
      exfalso
      rw [hbr, hact, husr] at h1
      simp [falsy, hrid] at h1
  · rename_i h1
    split
    · rename_i h2
      refine ⟨?_, ?_, ?_⟩
      · intro h; exact absurd h (by simp)
      · intro c m _; rfl
      · intro hbr hrid hact husr hts hdup
        exact ⟨rfl, rfl⟩
    · rename_i h2
      refine ⟨?_, ?_, ?_⟩
      · intro _; rfl
      · intro c m h; exact absurd h (by simp)
      · intro hbr hrid hact husr hts hdup
        exfalso
        rw [hbr, hts] at h2
        simp only [Option.getD_some] at h2
        exact h2 hdup

/-- Witness for C10: with ("R1", 5) already logged, a second append carrying
the same millisecond timestamp fails with the 500 store error and leaves the
log unchanged. -/
theorem C10_witness :
    (postHistory ⟨[], [], [⟨"R1", 5, "create", "u@x", none⟩], [], []⟩
        ⟨some "R1", some "approve", some "a@x", some 5, none⟩ 9).2 =
      .err 500 "Failed to save history log" ∧
    (postHistory ⟨[], [], [⟨"R1", 5, "create", "u@x", none⟩], [], []⟩
        ⟨some "R1", some "approve", some "a@x", some 5, none⟩ 9).1 =
      ⟨[], [], [⟨"R1", 5, "create", "u@x", none⟩], [], []⟩ :=
  (C10_history_append_only ⟨[], [], [⟨"R1", 5, "create", "u@x", none⟩], [],
      []⟩ ⟨some "R1", some "approve", some "a@x", some 5, none⟩ 9 "R1"
      5).2.2 (by decide) (by decide) (by decide) (by decide) (by decide)
      (by decide)

/-- C6 counterexample: `generateRequestId("c")` (lowercase) produces a
C-prefixed identifier even though ncType is not the string "C" — the code
uppercases ncType before comparing, so the prefix is not "C exactly when
ncType is 'C'". -/
theorem C6_counterexample :
    (generateRequestId (some "c") "20250115" []).1 = "C_15012025_001" ∧
    "c" ≠ "C" := by
  decide

/-- C6 (amended): generateRequestId(ncType) returns
`{N|C}_{DDMMYYYY}_{seq3}` where the prefix is "C" exactly when ncType
UPPERCASED is "C" (and "N" otherwise), DDMMYYYY is the allocation day
rearranged from the counter key yyyymmdd, and the sequence — zero-padded to
at least 3 digits — is the (prefix, day) counter value after a single
increment-or-insert: previous value + 1, i.e. 1 on the first allocation of
the day, and the updated counter table stores exactly that value. -/
theorem C6_identifier_shape_and_counter (counters : List CounterRow)
    (ncType : Option String) (today : String) :
    ∃ p n,
      (p = "C" ∨ p = "N") ∧
      (p = "C" ↔ jsUpper (match ncType with
        | none => "N"
        | some s => if s = "" then "N" else s) = "C") ∧
      n = (((counters.find? (fun c => c.pfx == p && c.yyyymmdd ==
        today)).map (fun c => c.lastSeq)).getD 0) + 1 ∧
      (generateRequestId ncType today counters).1 =
        p ++ "_" ++ ((today.drop 6).take 2 ++ (today.drop 4).take 2 ++
          today.take 4) ++ "_" ++ padStart 3 '0' (toString n) ∧
      ((generateRequestId ncType today counters).2.find?
        (fun c => c.pfx == p && c.yyyymmdd == today)).map
        (fun c => c.lastSeq) = some n := by
  by_cases hc : jsUpper (match ncType with
    | none => "N"
    | some s => if s = "" then "N" else s) = "C"
  · cases hfind : counters.find?
      (fun c => c.pfx == "C" && c.yyyymmdd == today) with
    | none =>
      have hany : counters.any
          (fun c => c.pfx == "C" && c.yyyymmdd == today) = false := by
        rw [List.any_eq_false]
        intro x hx
        simpa using List.find?_eq_none.mp hfind x hx
      refine ⟨"C", 1, Or.inl rfl, by simp [hc], by simp [hfind], ?_, ?_⟩
      · simp [generateRequestId, hc, hfind]
      · have h2 : (generateRequestId ncType today counters).2 =
            counters ++ [⟨"C", today, 1⟩] := by
          simp [generateRequestId, hc, hfind]
        rw [h2, find?_append_singleton _ counters _ hany (by simp)]
        rfl
    | some c0 =>
      refine ⟨"C", c0.lastSeq + 1, Or.inl rfl, by simp [hc],
        by simp [hfind], ?_, ?_⟩
      · simp [generateRequestId, hc, hfind]
      · have h2 : (generateRequestId ncType today counters).2 =
            counters.map (fun c => if c.pfx == "C" && c.yyyymmdd == today
              then { c with lastSeq := c.lastSeq + 1 } else c) := by
          simp [generateRequestId, hc, hfind]
        rw [h2, find?_map_incr, hfind]
        rfl
  · cases hfind : counters.find?
      (fun c => c.pfx == "N" && c.yyyymmdd == today) with
    | none =>
      have hany : counters.any
          (fun c => c.pfx == "N" && c.yyyymmdd == today) = false := by
        rw [List.any_eq_false]
        intro x hx
        simpa using List.find?_eq_none.mp hfind x hx
      refine ⟨"N", 1, Or.inr rfl, by simp [hc], by simp [hfind], ?_, ?_⟩
      · simp [generateRequestId, hc, hfind]
      · have h2 : (generateRequestId ncType today counters).2 =
            counters ++ [⟨"N", today, 1⟩] := by
          simp [generateRequestId, hc, hfind]
        rw [h2, find?_append_singleton _ counters _ hany (by simp)]
        rfl
    | some c0 =>
      refine ⟨"N", c0.lastSeq + 1, Or.inr rfl, by simp [hc],
        by simp [hfind], ?_, ?_⟩
      · simp [generateRequestId, hc, hfind]
      · have h2 : (generateRequestId ncType today counters).2 =
            counters.map (fun c => if c.pfx == "N" && c.yyyymmdd == today
              then { c with lastSeq := c.lastSeq + 1 } else c) := by
          simp [generateRequestId, hc, hfind]
        rw [h2, find?_map_incr, hfind]
        rfl

/-- C8: evaluation at the failing input.  `addApproval` awaits its
audit-history POST with no surrounding try/catch (unlike every other
history/notification side effect in the repository, which is explicitly
non-critical).  With (R1, t=50) already present in HistoryLogs, the history
append fails on PK_History after the Approval upsert has been committed:
the call reports the 500 failure to its caller even though the core
mutation (the approval row) is in the store — the side channel's failure
propagates as a failure of the primary operation, contradicting the claim
(which matches the documented propagation policy). -/
theorem C8_history_failure_propagates :
    (addApproval ⟨[⟨"R1", "plant", "T", "approved", "u@x", 0, 0⟩], [],
        [⟨"R1", 50, "create", "u@x", none⟩], [], []⟩ "R1" "it@x" "it"
        "approve" "done" none 50).2 =
      .err 500 "Failed to save history log" ∧
    (addApproval ⟨[⟨"R1", "plant", "T", "approved", "u@x", 0, 0⟩], [],
        [⟨"R1", 50, "create", "u@x", none⟩], [], []⟩ "R1" "it@x" "it"
        "approve" "done" none 50).1.approvals =
      [⟨"R1", "it@x", "it", "approve", some "done", none, 50⟩] ∧
    (addApproval ⟨[⟨"R1", "plant", "T", "approved", "u@x", 0, 0⟩], [],
        [⟨"R1", 50, "create", "u@x", none⟩], [], []⟩ "R1" "it@x" "it"
        "approve" "done" none 50).1.history =
      [⟨"R1", 50, "create", "u@x", none⟩] := by
  decide

/-- C9: with fewer than two stored versions the dialog diff reports
hasChanges = false and an empty change list; with two or more versions the
diff is `compareObjects prev latest` where latest and prev are exactly the
two snapshots with the highest version numbers (the sorted list is
descending: latest bounds everything, prev bounds the rest), the higher
version being the new side. -/
theorem C9_diff_compares_top_two_versions (versions : List Snapshot)
    (t : String) :
    (versions.length < 2 → dialogDiff versions t = ⟨false, [], []⟩) ∧
    (2 ≤ versions.length → ∃ latest prev rest,
      sortedVersions versions = latest :: prev :: rest ∧
      dialogDiff versions t = compareObjects prev latest t ∧
      versions.Perm (latest :: prev :: rest) ∧
      prev.version ≤ latest.version ∧
      (∀ x ∈ versions, x.version ≤ latest.version) ∧
      (∀ x ∈ rest, x.version ≤ prev.version)) := by
  have hperm : (sortedVersions versions).Perm versions :=
    List.perm_insertionSort versionDesc versions
  have hlen : (sortedVersions versions).length = versions.length :=
    hperm.length_eq
  have hsorted : List.Sorted versionDesc (sortedVersions versions) :=
    List.sorted_insertionSort versionDesc versions
  constructor
  · intro hlt
    cases hs : sortedVersions versions with
    | nil => simp only [dialogDiff, hs]
    | cons a tail =>
      cases tail with
      | nil => simp only [dialogDiff, hs]
      | cons b rest =>
        rw [hs] at hlen
        simp only [List.length_cons] at hlen
        omega
  · intro hge
    cases hs : sortedVersions versions with
    | nil =>
      rw [hs] at hlen
      simp only [List.length_nil] at hlen
      omega
    | cons a tail =>
      cases tail with
      | nil =>
        rw [hs] at hlen
        simp only [List.length_cons, List.length_nil] at hlen
        omega
      | cons b rest =>
        have hsc : List.Sorted versionDesc (a :: b :: rest) := hs ▸ hsorted
        have h1 := List.sorted_cons.mp hsc
        have h2 := List.sorted_cons.mp h1.2
        refine ⟨a, b, rest, rfl, ?_, ?_, ?_, ?_, ?_⟩
        · simp only [dialogDiff, hs]
        · exact (hs ▸ hperm).symm
        · exact h1.1 b (by simp)
        · intro x hx
          have hx2 : x ∈ a :: b :: rest := by
            rw [← hs]
            exact hperm.mem_iff.mpr hx
          rcases List.mem_cons.mp hx2 with h | h
          · exact h ▸ Nat.le_refl _
          · exact h1.1 x h
        · intro x hx
          exact h2.1 x hx

/-- Witness for C9: a single-version request diffs to the no-change
baseline; with versions 1 and 2 present the top two are compared. -/
theorem C9_witness :
    (dialogDiff [⟨1, [("nameOfPlant", "Alpha")]⟩] "plant" =
      ⟨false, [], []⟩) ∧
    (∃ latest prev rest,
      sortedVersions [⟨1, [("nameOfPlant", "Alpha")]⟩,
        ⟨2, [("nameOfPlant", "Beta")]⟩] = latest :: prev :: rest ∧
      dialogDiff [⟨1, [("nameOfPlant", "Alpha")]⟩,
        ⟨2, [("nameOfPlant", "Beta")]⟩] "plant" =
        compareObjects prev latest "plant" ∧
      ([⟨1, [("nameOfPlant", "Alpha")]⟩,
        ⟨2, [("nameOfPlant", "Beta")]⟩] : List Snapshot).Perm
        (latest :: prev :: rest) ∧
      prev.version ≤ latest.version ∧
      (∀ x ∈ ([⟨1, [("nameOfPlant", "Alpha")]⟩,
        ⟨2, [("nameOfPlant", "Beta")]⟩] : List Snapshot),
        x.version ≤ latest.version) ∧
      (∀ x ∈ rest, x.version ≤ prev.version)) :=
  ⟨(C9_diff_compares_top_two_versions [⟨1, [("nameOfPlant", "Alpha")]⟩]
      "plant").1 (by decide),
   (C9_diff_compares_top_two_versions [⟨1, [("nameOfPlant", "Alpha")]⟩,
      ⟨2, [("nameOfPlant", "Beta")]⟩] "plant").2 (by decide)⟩
